import Mathlib

set_option maxHeartbeats 1000000
set_option maxRecDepth 4000
set_option linter.unusedVariables false

/-!
Verification development for the DailyFlow client.

The definitions below are a shallow embedding of the relevant parts of the
source code: the line timing estimator and playback hook state machine from
App.tsx and hooks/useAudioPlayer.ts, the session acquisition pipeline of
loadAudioForScript together with its callers, and the audio generator
fallback logic of the service layer.  Machine floating point numbers are
modelled as exact rationals; suspension points of asynchronous code become
explicit atomic blocks of a step function.
-/

namespace DailyFlow

/-- One dialogue line, as in the shared types module: id, speaker, english,
chinese, sentiment. -/
structure DialogueLine where
  id : Int
  speaker : String
  english : String
  chinese : String
  sentiment : String
deriving DecidableEq

/-- One entry of the line timing table produced by calculateTimings.  The
field endT models the source field named end, which is a Lean keyword. -/
structure LineTiming where
  id : Int
  start : ℚ
  endT : ℚ
deriving DecidableEq

/-- Weight of one line in calculateTimings (App.tsx): the character length of
the english text plus the constant bias 10. -/
def lineWeight (l : DialogueLine) : ℚ := (l.english.length : ℚ) + 10

/-- The cumulative-sum map at the heart of calculateTimings: each line gets
lineDuration = (weight / totalWeight) * dur, starting where the previous
line ended; cur is the running accumulator (currentTime in the source). -/
def timingsFrom (totalWeight dur : ℚ) : List DialogueLine → ℚ → List LineTiming
  | [], _ => []
  | l :: ls, cur =>
    let lineDuration := lineWeight l / totalWeight * dur
    ⟨l.id, cur, cur + lineDuration⟩ :: timingsFrom totalWeight dur ls (cur + lineDuration)

/-- calculateTimings from App.tsx (identical in both App versions): weights
every line, sums the weights, and assigns ranges by running cumulative sum
in line order starting at 0. -/
def calculateTimings (lines : List DialogueLine) (dur : ℚ) : List LineTiming :=
  timingsFrom ((lines.map lineWeight).sum) dur lines 0

/-- Boolean predicate: adjacent entries of a timing table line up exactly,
the end of each entry equal to the start of the next. -/
def chained : List LineTiming → Bool
  | [] => true
  | [_] => true
  | a :: b :: rest => (a.endT == b.start) && chained (b :: rest)

lemma timingsFrom_map_id (W d : ℚ) :
    ∀ (ls : List DialogueLine) (cur : ℚ),
      (timingsFrom W d ls cur).map (fun t => t.id) = ls.map (fun l => l.id)
  | [], _ => rfl
  | l :: ls, cur => by
    simp [timingsFrom, timingsFrom_map_id W d ls]

lemma timingsFrom_chained (W d : ℚ) :
    ∀ (ls : List DialogueLine) (cur : ℚ), chained (timingsFrom W d ls cur) = true
  | [], _ => rfl
  | [_], _ => rfl
  | l :: l2 :: ls, cur => by
    have ih := timingsFrom_chained W d (l2 :: ls) (cur + lineWeight l / W * d)
    simp only [timingsFrom] at ih ⊢
    simp [chained, ih]

lemma timingsFrom_getLast_end (W d : ℚ) :
    ∀ (ls : List DialogueLine) (cur : ℚ), ls ≠ [] →
      (timingsFrom W d ls cur).getLast?.map (fun t => t.endT)
        = some (cur + (ls.map lineWeight).sum / W * d)
  | [], _, h => absurd rfl h
  | [l], cur, _ => by
    simp [timingsFrom]
  | l :: l2 :: ls, cur, _ => by
    have ih := timingsFrom_getLast_end W d (l2 :: ls) (cur + lineWeight l / W * d)
      (by simp)
    simp only [timingsFrom] at ih ⊢
    rw [List.getLast?_cons_cons, ih]
    simp only [List.map_cons, List.sum_cons]
    congr 1
    ring

lemma lineWeight_pos (l : DialogueLine) : 0 < lineWeight l := by
  unfold lineWeight
  positivity

lemma totalWeight_nonneg (lines : List DialogueLine) :
    0 ≤ (lines.map lineWeight).sum := by
  apply List.sum_nonneg
  intro x hx
  rcases List.mem_map.mp hx with ⟨l, _, rfl⟩
  exact le_of_lt (lineWeight_pos l)

lemma totalWeight_pos (lines : List DialogueLine) (h : lines ≠ []) :
    0 < (lines.map lineWeight).sum := by
  cases lines with
  | nil => exact absurd rfl h
  | cons l ls =>
    simp only [List.map_cons, List.sum_cons]
    have h1 := lineWeight_pos l
    have h2 := totalWeight_nonneg ls
    linarith

/-- Claim C2: for every non-empty line list and every duration greater than
0, calculateTimings returns a table with one entry per line in line order,
in which entry 0 starts at 0, the last entry ends exactly at the duration
(modelled over exact rationals, hence within any floating tolerance), and
each entry ends exactly where the next one starts. -/
theorem c2_timing_partition (lines : List DialogueLine) (dur : ℚ)
    (hne : lines ≠ []) (hdur : 0 < dur) :
    ((calculateTimings lines dur).map (fun t => t.id) = lines.map (fun l => l.id))
    ∧ ((calculateTimings lines dur).head?.map (fun t => t.start) = some 0)
    ∧ ((calculateTimings lines dur).getLast?.map (fun t => t.endT) = some dur)
    ∧ chained (calculateTimings lines dur) = true := by
  refine ⟨timingsFrom_map_id _ _ _ _, ?_, ?_, timingsFrom_chained _ _ _ _⟩
  · cases lines with
    | nil => exact absurd rfl hne
    | cons l ls => simp [calculateTimings, timingsFrom]
  · have hW := totalWeight_pos lines hne
    rw [calculateTimings, timingsFrom_getLast_end _ _ _ _ hne]
    rw [div_self (ne_of_gt hW)]
    norm_num

/-- Witness for C2 at a concrete two-line script with duration 10. -/
theorem c2_timing_partition_witness :
    ((calculateTimings
        [⟨1, ("A"), ("Hi"), (""), ("")⟩, ⟨2, ("B"), ("Hello there"), (""), ("")⟩] 10).map
          (fun t => t.id)
      = ([⟨1, ("A"), ("Hi"), (""), ("")⟩,
          ⟨2, ("B"), ("Hello there"), (""), ("")⟩] : List DialogueLine).map (fun l => l.id))
    ∧ ((calculateTimings
        [⟨1, ("A"), ("Hi"), (""), ("")⟩, ⟨2, ("B"), ("Hello there"), (""), ("")⟩] 10).head?.map
          (fun t => t.start) = some 0)
    ∧ ((calculateTimings
        [⟨1, ("A"), ("Hi"), (""), ("")⟩, ⟨2, ("B"), ("Hello there"), (""), ("")⟩] 10).getLast?.map
          (fun t => t.endT) = some 10)
    ∧ chained (calculateTimings
        [⟨1, ("A"), ("Hi"), (""), ("")⟩, ⟨2, ("B"), ("Hello there"), (""), ("")⟩] 10) = true :=
  c2_timing_partition _ 10 (by simp) (by norm_num)

lemma timingsFrom_get_span (W d : ℚ) :
    ∀ (ls : List DialogueLine) (cur : ℚ) (i : ℕ),
      ((timingsFrom W d ls cur)[i]?).map (fun t => t.endT - t.start)
        = (ls[i]?).map (fun l => lineWeight l / W * d)
  | [], _, _ => by simp [timingsFrom]
  | l :: ls, cur, 0 => by
    simp [timingsFrom]
  | l :: ls, cur, n + 1 => by
    simp only [timingsFrom, List.getElem?_cons_succ]
    exact timingsFrom_get_span W d ls _ n

/-- Claim C3: each line is allotted totalDuration * (weight / totalWeight)
where the weight is the english character length plus the bias 10, the
ranges are accumulated in line order, and for the concrete two-line script
with texts of lengths 2 and 11 and duration 10 the table is
[0, 40/11) and [40/11, 10) (40/11 = 12/33 * 10, approximately 3.64). -/
theorem c3_line_weight_formula :
    (∀ (lines : List DialogueLine) (dur : ℚ) (i : ℕ),
        ((calculateTimings lines dur)[i]?).map (fun t => t.endT - t.start)
          = (lines[i]?).map
              (fun l => ((l.english.length : ℚ) + 10) / (lines.map lineWeight).sum * dur))
    ∧ (∀ (lines : List DialogueLine) (dur : ℚ), chained (calculateTimings lines dur) = true)
    ∧ calculateTimings
        [⟨1, ("A"), ("Hi"), (""), ("")⟩, ⟨2, ("B"), ("Hello there"), (""), ("")⟩] 10
        = [⟨1, 0, 40/11⟩, ⟨2, 40/11, 10⟩] := by
  refine ⟨?_, ?_, ?_⟩
  · intro lines dur i
    have h := timingsFrom_get_span ((lines.map lineWeight).sum) dur lines 0 i
    simpa [calculateTimings, lineWeight] using h
  · intro lines dur
    exact timingsFrom_chained _ _ _ _
  · have h2 : ("Hi" : String).length = 2 := rfl
    have h11 : ("Hello there" : String).length = 11 := rfl
    simp only [calculateTimings, timingsFrom, lineWeight, List.map_cons, List.map_nil,
      List.sum_cons, List.sum_nil, h2, h11]
    norm_num

lemma timingsFrom_bounds (W d : ℚ) (hW : 0 ≤ W) (hd : 0 ≤ d) :
    ∀ (ls : List DialogueLine) (cur : ℚ), 0 ≤ cur →
      ∀ t ∈ timingsFrom W d ls cur, 0 ≤ t.start ∧ t.start ≤ t.endT
  | [], _, _ => by simp [timingsFrom]
  | l :: ls, cur, hcur => by
    intro t ht
    have hdur : 0 ≤ lineWeight l / W * d := by
      have := lineWeight_pos l
      positivity
    simp only [timingsFrom, List.mem_cons] at ht
    rcases ht with rfl | ht
    · constructor
      · exact hcur
      · simp only []
        linarith
    · exact timingsFrom_bounds W d hW hd ls (cur + lineWeight l / W * d)
        (by linarith) t ht

/-- Claim C10: each weight is at least 10, so a non-empty script has a
strictly positive total weight and the per-line division is well-defined;
and for a non-negative duration every produced entry has a non-negative
start with start at most end. -/
theorem c10_division_safety :
    (∀ l : DialogueLine, (10 : ℚ) ≤ lineWeight l)
    ∧ (∀ lines : List DialogueLine, lines ≠ [] → 0 < (lines.map lineWeight).sum)
    ∧ (∀ (lines : List DialogueLine) (dur : ℚ), 0 ≤ dur →
        ∀ t ∈ calculateTimings lines dur, 0 ≤ t.start ∧ t.start ≤ t.endT) := by
  refine ⟨?_, totalWeight_pos, ?_⟩
  · intro l
    unfold lineWeight
    have : (0 : ℚ) ≤ (l.english.length : ℚ) := by positivity
    linarith
  · intro lines dur hd
    exact timingsFrom_bounds _ dur (totalWeight_nonneg lines) hd lines 0 le_rfl

/-- Witness for C10 at a concrete one-line script with duration 5. -/
theorem c10_division_safety_witness :
    (0 < (([⟨1, ("A"), ("Hi"), (""), ("")⟩] : List DialogueLine).map lineWeight).sum)
    ∧ (0 ≤ (⟨1, 0, 5⟩ : LineTiming).start
        ∧ (⟨1, 0, 5⟩ : LineTiming).start ≤ (⟨1, 0, 5⟩ : LineTiming).endT) :=
  ⟨c10_division_safety.2.1 _ (by simp),
   c10_division_safety.2.2 [⟨1, ("A"), ("Hi"), (""), ("")⟩] 5 (by norm_num)
     ⟨1, 0, 5⟩ (by
        have h2 : ("Hi" : String).length = 2 := rfl
        simp only [calculateTimings, timingsFrom, lineWeight, List.map_cons, List.map_nil,
          List.sum_cons, List.sum_nil, h2, List.mem_singleton]
        norm_num)⟩

/-! ### Playback clock (hooks/useAudioPlayer.ts)

The hook state is modelled field by field: the React state record, the
lazily created AudioContext (hasCtx), the decoded buffer (buffer, as its
decoded duration), the active output node (hasSource), the onEnded callback
wired to the last created source (srcCb), and the two timing refs.  The
hardware clock value ctx.currentTime is passed to each operation as an
explicit argument ct. -/

/-- State of the useAudioPlayer hook.  stDuration and stCurrentTime are the
React state fields duration and currentTime; buffer holds the decoded
duration of bufferRef.current; startTime and pauseTime are the two refs. -/
structure PlayerState where
  isPlaying : Bool
  isLoading : Bool
  stDuration : ℚ
  stCurrentTime : ℚ
  hasCtx : Bool
  buffer : Option ℚ
  hasSource : Bool
  srcCb : Bool
  startTime : ℚ
  pauseTime : ℚ
deriving DecidableEq

/-- The initial hook state: nothing loaded, nothing playing. -/
def initPlayer : PlayerState :=
  ⟨false, false, 0, 0, false, none, false, false, 0, 0⟩

/-- JavaScript truthiness fallback x applied to an optional duration:
models expressions of the form bufferRef.current?.duration || dflt, where
both a missing buffer and a zero duration fall back to the default. -/
def jsOr (o : Option ℚ) (dflt : ℚ) : ℚ :=
  match o with
  | none => dflt
  | some v => if v = 0 then dflt else v

/-- Truncation toward zero, the rounding used by the JavaScript % operator. -/
def rtrunc (q : ℚ) : ℤ := if q < 0 then -⌊-q⌋ else ⌊q⌋

/-- The JavaScript remainder a % b for b different from 0 (the only case
reachable in the source, since the divisor is duration || 1); the b = 0
branch merely totalizes the definition. -/
def jsMod (a b : ℚ) : ℚ := if b = 0 then 0 else a - b * (rtrunc (a / b) : ℚ)

/-- playAudioSource from useAudioPlayer.ts: returns early when no buffer is
loaded; otherwise stops any current source, creates and starts a new one at
the given offset, anchors startTimeRef at ct - offset, and wires the
onEnded callback to the new source. -/
def playAudioSource (ct offset : ℚ) (cb : Bool) (s : PlayerState) : PlayerState :=
  let s1 := { s with hasCtx := true }
  match s1.buffer with
  | none => s1
  | some _ => { s1 with hasSource := true, srcCb := cb, startTime := ct - offset }

/-- play from useAudioPlayer.ts: computes the resume offset as
pauseTimeRef % (buffer duration || 1), delegates to playAudioSource, and
sets isPlaying to true unconditionally. -/
def play (ct : ℚ) (cb : Bool) (s : PlayerState) : PlayerState :=
  let s1 := { s with hasCtx := true }
  let offset := jsMod s1.pauseTime (jsOr s1.buffer 1)
  let s2 := playAudioSource ct offset cb s1
  { s2 with isPlaying := true }

/-- pause from useAudioPlayer.ts: stops and clears the source, captures the
elapsed time as the paused offset when currently playing, and clears
isPlaying. -/
def pause (ct : ℚ) (s : PlayerState) : PlayerState :=
  let s1 := { s with hasCtx := true, hasSource := false }
  let s2 := if s1.isPlaying then { s1 with pauseTime := ct - s1.startTime } else s1
  { s2 with isPlaying := false }

/-- stop from useAudioPlayer.ts: halts the source, resets the paused offset
to 0, clears isPlaying and the published current time; the buffer stays. -/
def stop (s : PlayerState) : PlayerState :=
  { s with hasSource := false, pauseTime := 0, isPlaying := false, stCurrentTime := 0 }

/-- reset from useAudioPlayer.ts: discards the buffer and all offsets and
returns the state record to its defaults; the AudioContext is kept. -/
def reset (s : PlayerState) : PlayerState :=
  { s with
      hasSource := false
      srcCb := false
      buffer := none
      pauseTime := 0
      startTime := 0
      isPlaying := false
      isLoading := false
      stDuration := 0
      stCurrentTime := 0 }

/-- seek from useAudioPlayer.ts: clamps the target to
[0, buffer duration || 0], stores it as the paused offset, and either
restarts the source there (when playing) or publishes it as the current
time (when paused). -/
def seek (ct t : ℚ) (cb : Bool) (s : PlayerState) : PlayerState :=
  let s1 := { s with hasCtx := true }
  let safeTime := max 0 (min t (jsOr s1.buffer 0))
  let s2 := { s1 with pauseTime := safeTime }
  if s2.isPlaying then playAudioSource ct safeTime cb s2
  else { s2 with stCurrentTime := safeTime }

/-- getCurrentTime from useAudioPlayer.ts: 0 before any context exists,
hardware clock minus anchor while playing, the stored paused offset
otherwise. -/
def getCurrentTime (ct : ℚ) (s : PlayerState) : ℚ :=
  if s.hasCtx = false then 0
  else if s.isPlaying then ct - s.startTime
  else s.pauseTime

/-- A successful loadAudio from useAudioPlayer.ts, abstracted over the
decoded duration d: stores the buffer, resets the paused offset, and
publishes the new duration with current time 0. -/
def loadAudioOk (d : ℚ) (s : PlayerState) : PlayerState :=
  { s with
      hasCtx := true
      buffer := some d
      pauseTime := 0
      isLoading := false
      stDuration := d
      stCurrentTime := 0 }

/-- The onended handler installed by playAudioSource, run when the browser
delivers the ended event at hardware time ct: it reads the refs at delivery
time, and only when the elapsed time is within 0.2 of the decoded duration
does it reset the offset, clear isPlaying, and fire the registered
callback.  Returns the new state and whether the callback fired. -/
def endedHandler (ct : ℚ) (s : PlayerState) : PlayerState × Bool :=
  let elapsed := ct - s.startTime
  let dur := jsOr s.buffer 0
  if |elapsed - dur| < 1/5 then
    ({ s with pauseTime := 0, isPlaying := false, stCurrentTime := 0 }, s.srcCb)
  else (s, false)

/-- Events of a playback run: the user-facing operations plus the
asynchronous delivery of an ended event by the audio backend. -/
inductive PEvent where
  | load (d : ℚ)
  | play (ct : ℚ) (cb : Bool)
  | pause (ct : ℚ)
  | stop
  | seek (ct t : ℚ) (cb : Bool)
  | ended (ct : ℚ)

/-- A playback run: the hook state plus the number of times the natural-end
callback has fired. -/
structure PRun where
  st : PlayerState
  cbCount : ℕ
deriving DecidableEq

/-- One event step of a playback run. -/
def pstep (r : PRun) : PEvent → PRun
  | .load d => ⟨loadAudioOk d r.st, r.cbCount⟩
  | .play ct cb => ⟨play ct cb r.st, r.cbCount⟩
  | .pause ct => ⟨pause ct r.st, r.cbCount⟩
  | .stop => ⟨stop r.st, r.cbCount⟩
  | .seek ct t cb => ⟨seek ct t cb r.st, r.cbCount⟩
  | .ended ct =>
    let p := endedHandler ct r.st
    ⟨p.1, r.cbCount + (if p.2 then 1 else 0)⟩

/-- Run a list of events from the initial hook state. -/
def prun (es : List PEvent) : PRun := es.foldl pstep ⟨initPlayer, 0⟩

lemma jsMod_zero (b : ℚ) : jsMod 0 b = 0 := by
  unfold jsMod rtrunc
  split
  · rfl
  · norm_num

lemma jsMod_self (d : ℚ) (hd : d ≠ 0) : jsMod d d = 0 := by
  unfold jsMod rtrunc
  rw [if_neg hd, div_self hd]
  norm_num

lemma jsOr_some_self (d : ℚ) : jsOr (some d) 0 = d := by
  unfold jsOr
  split <;> simp_all

/-- Claim C4, amended: the ended handler fires the registered callback
exactly when the ended event is delivered with elapsed time within 0.2 of
the decoded duration, regardless of what halted the run; after a natural
end the callback has fired exactly once, isPlaying is false and
getCurrentTime returns 0; a delivery with elapsed time at least 0.2 away
from the duration changes nothing and fires nothing. -/
theorem c4_natural_end :
    (∀ d t0 : ℚ,
        (prun [.load d, .play t0 true, .ended (t0 + d)]).cbCount = 1
        ∧ (prun [.load d, .play t0 true, .ended (t0 + d)]).st.isPlaying = false
        ∧ ∀ ct, getCurrentTime ct (prun [.load d, .play t0 true, .ended (t0 + d)]).st = 0)
    ∧ (∀ (r : PRun) (ct : ℚ),
        1/5 ≤ |ct - r.st.startTime - jsOr r.st.buffer 0| →
        pstep r (.ended ct) = r) := by
  constructor
  · intro d t0
    have hoff : jsMod 0 (jsOr (some d) 1) = 0 := jsMod_zero _
    by_cases hd : d = 0
    · subst hd
      simp [prun, pstep, loadAudioOk, play, playAudioSource, endedHandler,
        getCurrentTime, initPlayer, jsOr, hoff, jsMod_zero]
    · simp [prun, pstep, loadAudioOk, play, playAudioSource, endedHandler,
        getCurrentTime, initPlayer, jsOr, hd, hoff, jsMod_zero]
  · intro r ct h
    have h' : ¬(|ct - r.st.startTime - jsOr r.st.buffer 0| < 1/5) := not_lt.mpr h
    cases r with
    | mk st cnt =>
      simp only [pstep, endedHandler]
      rw [sub_sub] at h'
      rw [if_neg (by simpa [sub_sub] using h')]
      simp

/-- Witness for C4: a natural end of a 5 second clip fires the callback
once, and an ended delivery far from the end of a fresh run is a no-op. -/
theorem c4_natural_end_witness :
    ((prun [.load 5, .play 0 true, .ended (0 + 5)]).cbCount = 1)
    ∧ pstep ⟨initPlayer, 0⟩ (.ended 10) = ⟨initPlayer, 0⟩ :=
  ⟨(c4_natural_end.1 5 0).1,
   c4_natural_end.2 ⟨initPlayer, 0⟩ 10 (by
      simp [initPlayer, jsOr]
      norm_num)⟩

/-- Counterexample to claim C4 as stated: pausing a 5 second clip at 4.9
seconds halts the output run via pause, yet the subsequently delivered
ended event satisfies the 0.2 tolerance check and fires the natural-end
callback, so the callback does fire on a pause halt near the end. -/
theorem c4_counterexample :
    ((prun [.load 5, .play 0 true, .pause (49/10)]).st.isPlaying = false)
    ∧ (prun [.load 5, .play 0 true, .pause (49/10), .ended (49/10)]).cbCount = 1 := by
  have hoff : jsMod 0 (jsOr (some (5:ℚ)) 1) = 0 := jsMod_zero _
  constructor
  · simp [prun, pstep, loadAudioOk, play, playAudioSource, pause, initPlayer]
  · simp [prun, pstep, loadAudioOk, play, playAudioSource, pause, endedHandler,
      initPlayer, jsOr, hoff, jsMod_zero]
    rw [if_pos (show |(49:ℚ)/10 - 5| < 5⁻¹ by
      rw [abs_lt]
      constructor <;> norm_num)]

/-- Claim C5, amended: when no buffer is loaded, play() starts no output
run and leaves every stored offset unchanged, but still sets isPlaying to
true (and materializes the audio context), so it is not a complete no-op;
when a buffer is loaded, play() starts a run anchored at the stored paused
offset wrapped by the JavaScript remainder modulo the duration, and a
paused offset equal to the duration restarts from 0. -/
theorem c5_play_behaviour :
    (∀ (s : PlayerState) (ct : ℚ) (cb : Bool), s.buffer = none →
        play ct cb s = { s with isPlaying := true, hasCtx := true })
    ∧ (∀ (s : PlayerState) (ct : ℚ) (cb : Bool) (d : ℚ), s.buffer = some d →
        play ct cb s = { s with
          isPlaying := true
          hasCtx := true
          hasSource := true
          srcCb := cb
          startTime := ct - jsMod s.pauseTime (jsOr (some d) 1) })
    ∧ (∀ (s : PlayerState) (ct : ℚ) (cb : Bool) (d : ℚ),
        s.buffer = some d → s.pauseTime = d → d ≠ 0 →
        (play ct cb s).startTime = ct) := by
  refine ⟨?_, ?_, ?_⟩
  · intro s ct cb hb
    simp [play, playAudioSource, hb]
  · intro s ct cb d hb
    simp [play, playAudioSource, hb]
  · intro s ct cb d hb hp hd
    have h1 : jsOr (some d) 1 = d := by
      unfold jsOr
      simp [hd]
    simp [play, playAudioSource, hb, hp, h1, jsMod_self d hd]

/-- Witness for C5: with a 5 second buffer and paused offset 5, play
resumes from offset 0, anchoring the run at the call time. -/
theorem c5_play_behaviour_witness :
    (play 3 false { initPlayer with buffer := some 5, pauseTime := 5 }).startTime = 3 :=
  c5_play_behaviour.2.2 _ 3 false 5 rfl rfl (by norm_num)

/-- Counterexample to claim C5 as stated: with no buffer loaded, play() is
not a no-op: it flips the observable isPlaying flag from false to true. -/
theorem c5_counterexample :
    initPlayer.buffer = none ∧ initPlayer.isPlaying = false
    ∧ (play 0 false initPlayer).isPlaying = true := by
  refine ⟨rfl, rfl, ?_⟩
  simp [play, playAudioSource, initPlayer]

/-- Claim C6: for every time value t and loaded duration d, pause()
followed by seek(t) leaves isPlaying false and makes getCurrentTime()
return exactly t clamped to [0, d]. -/
theorem c6_seek_under_pause (s : PlayerState) (ct1 ct2 ct3 t d : ℚ) (cb : Bool)
    (hb : s.buffer = some d) :
    (seek ct2 t cb (pause ct1 s)).isPlaying = false
    ∧ getCurrentTime ct3 (seek ct2 t cb (pause ct1 s)) = max 0 (min t d) := by
  have hclamp : jsOr (some d) 0 = d := jsOr_some_self d
  cases hp : s.isPlaying <;>
    simp [pause, seek, playAudioSource, getCurrentTime, hb, hp, hclamp]

/-- Witness for C6: pausing a 5 second clip and seeking to 3 publishes
exactly 3 = max 0 (min 3 5). -/
theorem c6_seek_under_pause_witness :
    (seek 2 3 false (pause 1 { initPlayer with buffer := some 5 })).isPlaying = false
    ∧ getCurrentTime 9 (seek 2 3 false (pause 1 { initPlayer with buffer := some 5 }))
        = max 0 (min 3 5) :=
  c6_seek_under_pause { initPlayer with buffer := some 5 } 1 2 9 3 5 false rfl

/-! ### Animation-frame sampling loop (App.tsx, both App versions)

The loop-owned React state (uiCurrentTime, activeLineId) plus whether an
animation frame is currently scheduled.  updateLoop models one tick with
the sampled clock value t passed in; effectBody models the body of the
useEffect that runs on an isPlaying transition. -/

/-- State touched by the sampling loop: the published progress time, the
highlighted line id, and whether an animation frame is pending. -/
structure LoopState where
  uiCurrentTime : ℚ
  activeLineId : Option Int
  scheduled : Bool
deriving DecidableEq

/-- The lookup lineTimings.find of the entry containing t. -/
def findActive (timings : List LineTiming) (t : ℚ) : Option LineTiming :=
  timings.find? (fun l => decide (l.start ≤ t ∧ t < l.endT))

/-- updateLoop of the first App version: publishes the sampled time every
tick, updates the active line, and reschedules itself only while playing. -/
def updateLoop1 (isPlaying : Bool) (t : ℚ) (timings : List LineTiming) (dur : ℚ)
    (st : LoopState) : LoopState :=
  let s1 := { st with uiCurrentTime := t }
  let s2 :=
    if timings.length > 0 then
      match findActive timings t with
      | some l => { s1 with activeLineId := some l.id }
      | none => if dur - 1/10 ≤ t then { s1 with activeLineId := none } else s1
    else s1
  { s2 with scheduled := isPlaying }

/-- The body of the effect of the first App version on an isPlaying transition:
while playing it schedules a frame; on the transition to paused it takes
one synchronous sample t of getCurrentTime, publishes it, and cancels the
pending frame. -/
def effectBody1 (isPlaying : Bool) (t : ℚ) (st : LoopState) : LoopState :=
  if isPlaying then { st with scheduled := true }
  else { st with uiCurrentTime := t, scheduled := false }

/-- updateLoop of the second App version: publishes time only when the
active line changes (or when clearing it near the end, where it publishes
the duration), and reschedules itself only while playing. -/
def updateLoop2 (isPlaying : Bool) (t : ℚ) (timings : List LineTiming) (dur : ℚ)
    (st : LoopState) : LoopState :=
  let s1 :=
    if timings.length > 0 then
      match findActive timings t with
      | some l =>
          if some l.id ≠ st.activeLineId then
            { st with activeLineId := some l.id, uiCurrentTime := t }
          else st
      | none =>
          if dur - 1/10 ≤ t ∧ st.activeLineId ≠ none then
            { st with activeLineId := none, uiCurrentTime := dur }
          else st
    else st
  { s1 with scheduled := isPlaying }

/-- The body of the effect of the second App version on an isPlaying transition:
while playing it schedules a frame; otherwise it only cancels the pending
frame, taking no sample. -/
def effectBody2 (isPlaying : Bool) (st : LoopState) : LoopState :=
  if isPlaying then { st with scheduled := true } else { st with scheduled := false }

/-- Claim C8, amended: in both App versions the sampling loop stops
scheduling further ticks the instant isPlaying is false; on the transition
to paused the first App version takes exactly one synchronous
getCurrentTime sample and publishes it, while the second App version takes
no final sample at all, it only cancels the pending frame. -/
theorem c8_loop_termination :
    (∀ (t : ℚ) (tm : List LineTiming) (dur : ℚ) (st : LoopState),
        (updateLoop1 false t tm dur st).scheduled = false)
    ∧ (∀ (t : ℚ) (tm : List LineTiming) (dur : ℚ) (st : LoopState),
        (updateLoop2 false t tm dur st).scheduled = false)
    ∧ (∀ (t : ℚ) (st : LoopState),
        effectBody1 false t st = { st with uiCurrentTime := t, scheduled := false })
    ∧ (∀ st : LoopState,
        (effectBody2 false st).uiCurrentTime = st.uiCurrentTime
        ∧ (effectBody2 false st).scheduled = false) := by
  refine ⟨?_, ?_, ?_, ?_⟩
  · intro t tm dur st
    simp [updateLoop1]
  · intro t tm dur st
    simp [updateLoop2]
  · intro t st
    simp [effectBody1]
  · intro st
    simp [effectBody2]

/-- Counterexample to claim C8 as stated: in the second App version,
transitioning to paused with a stale published time 1 while the clock reads
3 leaves the published time at 1 — no final synchronous sample is taken,
unlike the first App version, which publishes 3. -/
theorem c8_counterexample :
    (effectBody2 false ⟨1, none, true⟩).uiCurrentTime = 1
    ∧ (effectBody2 false ⟨1, none, true⟩).uiCurrentTime ≠ 3
    ∧ (effectBody1 false 3 ⟨1, none, true⟩).uiCurrentTime = 3 := by
  refine ⟨rfl, ?_, rfl⟩
  simp [effectBody2]

/-! ### Session orchestrator error handling (App.tsx: handleGenerate and
loadAudioForScript, identical in both App versions)

A sequential model of one generate call: the external outcomes (script
generation, cache lookup, audio generation, audio decode) are supplied as
an environment, and the orchestrator-owned React state is threaded
through.  Within a single sequential call the active-session token does
not change, so the four race-condition checks compare equal tokens; the
interleaved two-session model for claim C1 follows separately below. -/

/-- Orchestrator-owned state: the loading flag, the user-visible error, the
active-session token (currentScriptIdRef), the displayed script, the
audio-generation phase flag, and the Playback Clock buffer (as the loaded
duration) affected through reset and loadAudio. -/
structure OrchState where
  isLoading : Bool
  error : Option String
  token : Option ℕ
  script : Option ℕ
  isGeneratingAudio : Bool
  clock : Option ℚ
deriving DecidableEq

/-- Environment of one audio acquisition: the cache lookup result (none
models both a missing and an empty cached payload, which the source treats
as a miss), the audio generator outcome, and whether the decode in
loadAudio succeeds. -/
structure AcqEnv where
  cacheResult : Option ℚ
  genResult : Except Unit ℚ
  loadOk : Bool

/-- The final step of the acquisition: await loadAudio(audioBase64).  On
success the clock holds the decoded audio and the generating flag clears;
a decode failure throws into the enclosing catch, which deliberately
changes nothing (the comment in the source reads: do NOT unset
isGeneratingAudio here to maintain infinite loading on error). -/
def loadStep (env : AcqEnv) (a : ℚ) (st : OrchState) : OrchState :=
  if env.loadOk then { st with clock := some a, isGeneratingAudio := false } else st

/-- loadAudioForScript from App.tsx, run sequentially for one session sid:
sets the generating flag, performs the four token checks (all against an
unchanged token here), consults the cache, on miss generates audio and
writes it back, and loads the payload; every thrown error lands in the
catch, which leaves the state untouched. -/
def loadAudioForScriptSeq (env : AcqEnv) (sid : ℕ) (st0 : OrchState) : OrchState :=
  let st := { st0 with isGeneratingAudio := true }
  if st.token = some sid then
    if st.token = some sid then
      match env.cacheResult with
      | some a => if st.token = some sid then loadStep env a st else st
      | none =>
        match env.genResult with
        | .error _ => st
        | .ok a =>
          if st.token = some sid then
            if st.token = some sid then loadStep env a st else st
          else st
    else st
  else st

/-- handleGenerate from App.tsx: clears the error, resets the clock,
invalidates the token, and requests a script; on script failure it sets
the single user-visible error message and stops loading; on success it
sets the new session id as the active token and runs the audio
acquisition, whose own failures are swallowed inside
loadAudioForScript. -/
def handleGenerate (scriptRes : Except Unit ℕ) (env : AcqEnv) (st0 : OrchState) :
    OrchState :=
  let st := { st0 with
    isLoading := true
    error := none
    clock := none
    token := none
    isGeneratingAudio := false }
  match scriptRes with
  | .error _ =>
      { st with
        error := some ("Failed to load lesson. Please check API key/quota.")
        isLoading := false }
  | .ok sid =>
      let st1 := { st with
        script := some sid
        token := some sid
        isLoading := false }
      loadAudioForScriptSeq env sid st1

/-- Claim C7, amended: a script-generation failure sets the single
user-visible error state, stops loading, and leaves no active token and no
loaded audio; but audio-generation and audio-decode failures during the
active session are caught inside the acquisition routine, which sets no
error at all and leaves the generating-audio flag on (a deliberate
permanent loading state) with no audio loaded. -/
theorem c7_error_propagation :
    (∀ (env : AcqEnv) (st : OrchState),
        handleGenerate (.error ()) env st = { st with
          isLoading := false
          error := some ("Failed to load lesson. Please check API key/quota.")
          clock := none
          token := none
          isGeneratingAudio := false })
    ∧ (∀ (st : OrchState) (sid : ℕ) (lo : Bool),
        (handleGenerate (.ok sid) ⟨none, .error (), lo⟩ st).error = none
        ∧ (handleGenerate (.ok sid) ⟨none, .error (), lo⟩ st).isGeneratingAudio = true
        ∧ (handleGenerate (.ok sid) ⟨none, .error (), lo⟩ st).clock = none)
    ∧ (∀ (st : OrchState) (sid : ℕ) (a fallbackDur : ℚ),
        (handleGenerate (.ok sid) ⟨some a, .ok fallbackDur, false⟩ st).error = none
        ∧ (handleGenerate (.ok sid) ⟨some a, .ok fallbackDur, false⟩ st).isGeneratingAudio
            = true
        ∧ (handleGenerate (.ok sid) ⟨some a, .ok fallbackDur, false⟩ st).clock = none) := by
  refine ⟨?_, ?_, ?_⟩
  · intro env st
    rfl
  · intro st sid lo
    simp [handleGenerate, loadAudioForScriptSeq]
  · intro st sid a fallbackDur
    simp [handleGenerate, loadAudioForScriptSeq, loadStep]

/-- Counterexample to claim C7 as stated: from an idle state, a successful
script generation followed by a failed audio generation leaves no
user-visible error and keeps the generating-audio indicator on forever, so
the error does not propagate to the Orchestrator error state. -/
theorem c7_counterexample :
    (handleGenerate (.ok 1) ⟨none, .error (), true⟩
        ⟨false, none, none, none, false, none⟩).error = none
    ∧ (handleGenerate (.ok 1) ⟨none, .error (), true⟩
        ⟨false, none, none, none, false, none⟩).isGeneratingAudio = true := by
  constructor <;> rfl

/-! ### Audio generator fallback (generateAudioFromScript, service layer)

The two remote text-to-speech calls are abstracted as environment
outcomes; an outcome of ok none models a response carrying no inline audio
data, which the source turns into a thrown error.  The rate-limit
classification of a caught error follows the source predicate over the
error message and status. -/

/-- The error object caught around a synthesis call: its message and an
optional HTTP status. -/
structure ApiError where
  msg : String
  status : Option ℕ
deriving DecidableEq

/-- Whether the character list pat occurs at the start of s. -/
def charsHavePre : List Char → List Char → Bool
  | _, [] => true
  | [], _ :: _ => false
  | c :: cs, d :: ds => c == d && charsHavePre cs ds

/-- Whether the character list pat occurs anywhere in s. -/
def charsContain : List Char → List Char → Bool
  | [], pat => charsHavePre [] pat
  | c :: rest, pat => charsHavePre (c :: rest) pat || charsContain rest pat

/-- The JavaScript String.includes substring test. -/
def strContains (s pat : String) : Bool := charsContain s.data pat.data

/-- The rate-limit classification from generateAudioFromScript: the message
includes 429, the status is 429, or the stringified error (Error: message)
includes RESOURCE_EXHAUSTED. -/
def isRateLimitError (e : ApiError) : Bool :=
  strContains e.msg ("429") || e.status == some 429
    || strContains (("Error: ") ++ e.msg) ("RESOURCE_EXHAUSTED")

/-- Outcomes of the two synthesis calls: the multi-speaker request and the
single-voice fallback request.  ok none models a response with no inline
audio payload. -/
structure AudioEnv where
  primaryRes : Except ApiError (Option String)
  fallbackRes : Except ApiError (Option String)

/-- One line of the synthesis request, as typed in the source:
speaker and english text. -/
structure TtsLine where
  speaker : String
  english : String
deriving DecidableEq

/-- generateAudioFromScript from the service layer: rejects an empty line
list; returns primary audio directly on success; on a primary failure it
rethrows immediately when the failure is rate-limit-classified, and
otherwise attempts the single-voice fallback exactly once, returning its
audio like a primary success or rethrowing its error.  The second
component counts fallback synthesis attempts. -/
def generateAudioFromScript (env : AudioEnv) (lines : List TtsLine) :
    Except ApiError String × ℕ :=
  if lines = [] then (Except.error ⟨("Invalid dialogue lines."), none⟩, 0)
  else
    let onPrimaryFailure : ApiError → Except ApiError String × ℕ := fun e =>
      if isRateLimitError e then (Except.error e, 0)
      else
        match env.fallbackRes with
        | .ok (some a) => (Except.ok a, 1)
        | .ok none => (Except.error ⟨("No audio generated from fallback model"), none⟩, 1)
        | .error e2 => (Except.error e2, 1)
    match env.primaryRes with
    | .ok (some a) => (Except.ok a, 0)
    | .ok none => onPrimaryFailure ⟨("No audio generated from multi-speaker model"), none⟩
    | .error e => onPrimaryFailure e

/-- Claim C9: for every non-empty line list, a successful multi-speaker
synthesis is returned with no fallback attempt; a rate-limit-classified
failure propagates unchanged with no fallback attempt; any other failure
triggers exactly one single-voice fallback attempt, and a successful
fallback result is returned identically to a primary success. -/
theorem c9_fallback_policy (env : AudioEnv) (lines : List TtsLine) (h : lines ≠ []) :
    (∀ a, env.primaryRes = .ok (some a) →
        generateAudioFromScript env lines = (.ok a, 0))
    ∧ (∀ e, env.primaryRes = .error e → isRateLimitError e = true →
        generateAudioFromScript env lines = (.error e, 0))
    ∧ (∀ e, env.primaryRes = .error e → isRateLimitError e = false →
        (generateAudioFromScript env lines).2 = 1
        ∧ ∀ a, env.fallbackRes = .ok (some a) →
            (generateAudioFromScript env lines).1 = .ok a) := by
  refine ⟨?_, ?_, ?_⟩
  · intro a hp
    simp [generateAudioFromScript, h, hp]
  · intro e hp hrl
    simp [generateAudioFromScript, h, hp, hrl]
  · intro e hp hrl
    constructor
    · rcases hf : env.fallbackRes with e2 | a <;>
        simp [generateAudioFromScript, h, hp, hrl, hf]
      rcases a with _ | a <;> simp
    · intro a hf
      simp [generateAudioFromScript, h, hp, hrl, hf]

/-- Witness for C9: a non-rate-limited primary failure with a successful
fallback yields exactly one fallback attempt and the fallback audio. -/
theorem c9_fallback_policy_witness :
    ((generateAudioFromScript ⟨.error ⟨("boom"), none⟩, .ok (some ("abc"))⟩
        [⟨("A"), ("Hi")⟩]).2 = 1)
    ∧ ((generateAudioFromScript ⟨.error ⟨("boom"), none⟩, .ok (some ("abc"))⟩
        [⟨("A"), ("Hi")⟩]).1 = .ok ("abc")) := by
  have h := (c9_fallback_policy ⟨.error ⟨("boom"), none⟩, .ok (some ("abc"))⟩
    [⟨("A"), ("Hi")⟩] (by simp)).2.2 ⟨("boom"), none⟩ rfl (by decide)
  exact ⟨h.1, h.2 ("abc") rfl⟩

/-! ### Stale-session discard (loadAudioForScript interleavings)

Two session acquisitions race on the shared active-session token
(currentScriptIdRef) and the Playback Clock buffer.  Each acquisition is a
list of atomic blocks separated by the awaits of the source: Pc.genInit0
is the synchronous prefix of handleGenerate before the script await (pause
and reset the clock, token := null); Pc.init is the synchronous block
common to both callers that sets the token to the session id, clears the
clock, passes race-condition check 1, and issues the cache lookup;
Pc.cacheWait resumes after the cache lookup (check 2, and on a hit check 4
followed by the synchronous loadAudio body); Pc.genWait resumes after the
audio generation (check 3) and issues the cache write; Pc.saveWait resumes
after the cache write (check 4 followed by loadAudio).  One scheduler step
runs one block of one process; arbitrary interleavings are lists of
labels. -/

/-- Program counter of one acquisition pipeline, naming the atomic block
that runs at the next resume point. -/
inductive Pc where
  | genInit0
  | init
  | cacheWait
  | genWait
  | saveWait
  | done
deriving DecidableEq

/-- One session acquisition: its session id, its cache lookup result, its
audio generator outcome, and whether its decode succeeds. -/
structure AcqProc where
  sid : ℕ
  cache : Option ℚ
  gen : Except Unit ℚ
  loadOk : Bool

/-- The shared state raced on: the active-session token
currentScriptIdRef and the Playback Clock buffer (as a loaded duration). -/
structure CSys where
  token : Option ℕ
  clock : Option ℚ
deriving DecidableEq

/-- Run one atomic block of an acquisition: returns the new shared state
and the next program counter.  Every resumed block first compares the
captured session id against the token, exactly as the four checks in
loadAudioForScript do, and returns (done, untouched state) on mismatch; a
thrown generation or decode error falls into the catch, which also
mutates nothing. -/
def runBlock (p : AcqProc) (pc : Pc) (st : CSys) : CSys × Pc :=
  match pc with
  | .genInit0 => ({ st with token := none, clock := none }, .init)
  | .init =>
      let st1 : CSys := { st with token := some p.sid, clock := none }
      if st1.token = some p.sid then (st1, .cacheWait) else (st1, .done)
  | .cacheWait =>
      if st.token = some p.sid then
        match p.cache with
        | some a =>
            if st.token = some p.sid then
              (if p.loadOk then ({ st with clock := some a }, .done) else (st, .done))
            else (st, .done)
        | none => (st, .genWait)
      else (st, .done)
  | .genWait =>
      match p.gen with
      | .error _ => (st, .done)
      | .ok _ => if st.token = some p.sid then (st, .saveWait) else (st, .done)
  | .saveWait =>
      match p.gen with
      | .error _ => (st, .done)
      | .ok a =>
          if st.token = some p.sid then
            (if p.loadOk then ({ st with clock := some a }, .done) else (st, .done))
          else (st, .done)
  | .done => (st, .done)

/-- The whole raced system: the shared state and both program counters. -/
structure World where
  sys : CSys
  pcA : Pc
  pcB : Pc
deriving DecidableEq

/-- One scheduler step: a true label runs the next block of process A, a
false label runs the next block of process B. -/
def wstep (pA pB : AcqProc) (w : World) (lbl : Bool) : World :=
  if lbl then
    let r := runBlock pA w.pcA w.sys
    { w with sys := r.1, pcA := r.2 }
  else
    let r := runBlock pB w.pcB w.sys
    { w with sys := r.1, pcB := r.2 }

/-- Run a schedule, a list of labels, from a given world. -/
def wexec (pA pB : AcqProc) (sched : List Bool) (w : World) : World :=
  sched.foldl (wstep pA pB) w

/-- A pipeline has passed its init block (its token assignment): it sits at
one of the three resume points or is finished. -/
def postInit (pc : Pc) : Prop :=
  pc = .cacheWait ∨ pc = .genWait ∨ pc = .saveWait ∨ pc = .done

/-- The audio a successful acquisition of p would load: the cached payload
on a hit, the generated payload otherwise. -/
def expectedAudio (p : AcqProc) : Option ℚ :=
  match p.cache with
  | some a => some a
  | none => match p.gen with
    | .ok a => some a
    | .error _ => none

lemma runBlock_stale (p : AcqProc) (pc : Pc) (st : CSys)
    (hpc : postInit pc) (hm : st.token ≠ some p.sid) :
    runBlock p pc st = (st, .done) := by
  rcases hpc with h | h | h | h <;> subst h
  · simp [runBlock, hm]
  · rcases hg : p.gen with e | a <;> simp [runBlock, hg, hm]
  · rcases hg : p.gen with e | a <;> simp [runBlock, hg, hm]
  · simp [runBlock]

lemma runBlock_post (p : AcqProc) (pc : Pc) (st : CSys) (hpc : postInit pc) :
    postInit (runBlock p pc st).2 := by
  rcases hpc with h | h | h | h <;> subst h
  · by_cases ht : st.token = some p.sid
    · rcases hc : p.cache with _ | a
      · simp [runBlock, ht, hc, postInit]
      · by_cases hl : p.loadOk = true <;> simp [runBlock, ht, hc, hl, postInit]
    · simp [runBlock, ht, postInit]
  · rcases hg : p.gen with e | a
    · simp [runBlock, hg, postInit]
    · by_cases ht : st.token = some p.sid <;> simp [runBlock, hg, ht, postInit]
  · rcases hg : p.gen with e | a
    · simp [runBlock, hg, postInit]
    · by_cases ht : st.token = some p.sid
      · by_cases hl : p.loadOk = true <;> simp [runBlock, hg, ht, hl, postInit]
      · simp [runBlock, hg, ht, postInit]
  · simp [runBlock, postInit]

/-- Process B has not yet claimed the token: A is past its init block and B
is still before or at its own init block. -/
def preB (w : World) : Prop :=
  postInit w.pcA ∧ (w.pcB = .genInit0 ∨ w.pcB = .init)

/-- The invariant once B has claimed the token: the token stays B, A is
past init, and B progresses along its pipeline, ending done only with its
own audio loaded. -/
def inv (pB : AcqProc) (dB : ℚ) (w : World) : Prop :=
  w.sys.token = some pB.sid ∧ postInit w.pcA ∧
    (w.pcB = .cacheWait
     ∨ (w.pcB = .genWait ∧ pB.cache = none)
     ∨ (w.pcB = .saveWait ∧ pB.cache = none)
     ∨ (w.pcB = .done ∧ w.sys.clock = some dB))

lemma wstep_pres (pA pB : AcqProc) (hid : pA.sid ≠ pB.sid) (dB : ℚ)
    (hExp : expectedAudio pB = some dB) (hLoad : pB.loadOk = true)
    (w : World) (lbl : Bool) (h : preB w ∨ inv pB dB w) :
    preB (wstep pA pB w lbl) ∨ inv pB dB (wstep pA pB w lbl) := by
  rcases h with ⟨hA, hB⟩ | ⟨htok, hA, hB⟩
  · cases lbl
    · -- B runs while before or at its init block
      rcases hB with hB | hB
      · left
        refine ⟨?_, ?_⟩
        · simpa [wstep, hB] using hA
        · simp [wstep, hB, runBlock]
      · right
        refine ⟨?_, ?_, ?_⟩
        · simp [wstep, hB, runBlock]
        · simpa [wstep, hB] using hA
        · simp [wstep, hB, runBlock]
    · -- A runs; its counter stays past init and the counter of B is untouched
      left
      refine ⟨?_, ?_⟩
      · simpa [wstep] using runBlock_post pA w.pcA w.sys hA
      · simpa [wstep] using hB
  · cases lbl
    · -- B runs from a post-claim resume point with its own token in place
      right
      rcases hB with hB | ⟨hB, hc⟩ | ⟨hB, hc⟩ | ⟨hB, hclk⟩
      · rcases hc : pB.cache with _ | a
        · refine ⟨?_, ?_, ?_⟩ <;>
            simp [wstep, hB, runBlock, htok, hc, hA]
        · have ha : a = dB := by
            simp [expectedAudio, hc] at hExp
            exact hExp
          subst ha
          refine ⟨?_, ?_, ?_⟩ <;>
            simp [wstep, hB, runBlock, htok, hc, hLoad, hA]
      · rcases hg : pB.gen with e | a
        · simp [expectedAudio, hc, hg] at hExp
        · refine ⟨?_, ?_, ?_⟩ <;>
            simp [wstep, hB, runBlock, htok, hc, hg, hA]
      · rcases hg : pB.gen with e | a
        · simp [expectedAudio, hc, hg] at hExp
        · have ha : a = dB := by
            simp [expectedAudio, hc, hg] at hExp
            exact hExp
          subst ha
          refine ⟨?_, ?_, ?_⟩ <;>
            simp [wstep, hB, runBlock, htok, hc, hg, hLoad, hA]
      · refine ⟨?_, ?_, ?_⟩ <;>
          simp [wstep, hB, runBlock, htok, hA, hclk]
    · -- A runs against the token of B: every resumed continuation discards
      right
      have hm : w.sys.token ≠ some pA.sid := by
        rw [htok]
        intro hcontra
        exact hid (Option.some_injective _ hcontra).symm
      have hs := runBlock_stale pA w.pcA w.sys hA hm
      refine ⟨?_, ?_, ?_⟩
      · simpa [wstep, hs] using htok
      · simp [wstep, hs, postInit]
      · have hsys : (wstep pA pB w true).sys = w.sys := by simp [wstep, hs]
        have hpcB : (wstep pA pB w true).pcB = w.pcB := by simp [wstep]
        rw [hsys, hpcB]
        exact hB

lemma wexec_pres (pA pB : AcqProc) (hid : pA.sid ≠ pB.sid) (dB : ℚ)
    (hExp : expectedAudio pB = some dB) (hLoad : pB.loadOk = true) :
    ∀ (sched : List Bool) (w : World), (preB w ∨ inv pB dB w) →
      preB (wexec pA pB sched w) ∨ inv pB dB (wexec pA pB sched w)
  | [], w, h => h
  | lbl :: rest, w, h => by
    have h1 := wstep_pres pA pB hid dB hExp hLoad w lbl h
    have h2 := wexec_pres pA pB hid dB hExp hLoad rest (wstep pA pB w lbl) h1
    simpa [wexec] using h2

/-- Claim C1: once the active-session token no longer matches session A,
every resumed continuation of A (after the cache lookup, after the
audio generation, after the cache write and before the load) returns
without loading audio or mutating the shared token or clock; and for every
interleaving in which B claims the token after the acquisition of A has begun
(A past its init block, B not yet past its own), once both pipelines
finish the Playback Clock holds exactly the audio of B and the token of B, in
either completion order. -/
theorem c1_stale_session_discard (pA pB : AcqProc) (hid : pA.sid ≠ pB.sid)
    (dB : ℚ) (hExp : expectedAudio pB = some dB) (hLoad : pB.loadOk = true) :
    (∀ (pc : Pc) (st : CSys), postInit pc → st.token ≠ some pA.sid →
        runBlock pA pc st = (st, .done))
    ∧ (∀ (w : World) (sched : List Bool),
        postInit w.pcA → (w.pcB = .genInit0 ∨ w.pcB = .init) →
        (wexec pA pB sched w).pcA = .done →
        (wexec pA pB sched w).pcB = .done →
        (wexec pA pB sched w).sys.clock = some dB
        ∧ (wexec pA pB sched w).sys.token = some pB.sid) := by
  constructor
  · intro pc st hpc hm
    exact runBlock_stale pA pc st hpc hm
  · intro w sched hA hB hdoneA hdoneB
    have h := wexec_pres pA pB hid dB hExp hLoad sched w (Or.inl ⟨hA, hB⟩)
    rcases h with ⟨_, hpre⟩ | ⟨htok, _, hfin⟩
    · rcases hpre with hpre | hpre <;> rw [hdoneB] at hpre <;> exact absurd hpre (by simp)
    · rcases hfin with hfin | ⟨hfin, _⟩ | ⟨hfin, _⟩ | ⟨_, hclk⟩
      · rw [hdoneB] at hfin
        exact absurd hfin (by simp)
      · rw [hdoneB] at hfin
        exact absurd hfin (by simp)
      · rw [hdoneB] at hfin
        exact absurd hfin (by simp)
      · exact ⟨hclk, htok⟩

/-- Witness for C1: A (session 1) is suspended at its cache lookup when B
(session 2, a cached history item) claims the token; the schedule lets B
run its init and load blocks and then resumes A, whose continuation
discards itself, leaving the audio of B with duration 7 loaded and the token 2. -/
theorem c1_stale_session_discard_witness :
    (wexec ⟨1, none, .ok 3, true⟩ ⟨2, some 7, .ok 9, true⟩ [false, false, true]
        ⟨⟨some 1, none⟩, .cacheWait, .init⟩).sys.clock = some 7
    ∧ (wexec ⟨1, none, .ok 3, true⟩ ⟨2, some 7, .ok 9, true⟩ [false, false, true]
        ⟨⟨some 1, none⟩, .cacheWait, .init⟩).sys.token = some 2 :=
  (c1_stale_session_discard ⟨1, none, .ok 3, true⟩ ⟨2, some 7, .ok 9, true⟩
      (by norm_num) 7 rfl rfl).2
    ⟨⟨some 1, none⟩, .cacheWait, .init⟩ [false, false, true]
    (Or.inl rfl) (Or.inr rfl)
    (by simp [wexec, wstep, runBlock])
    (by simp [wexec, wstep, runBlock])

end DailyFlow
